import Mathlib

/-!
Verification development for the boa parser/executor core.

The definitions below are shallow embeddings of the Rust sources:
  * `src/boa/src/syntax/parser/mod.rs` (`DeclaredNames` and its operations),
  * `src/boa/src/syntax/parser/statement/block/mod.rs` (`Block::parse`),
  * `src/boa/src/syntax/ast/node/iteration/for_in_loop/mod.rs` (`ForInLoop::run`),
  * `src/boa/src/syntax/parser/class/mod.rs` (`ClassElementList::parse`).

Rust `HashMap<Box<str>, Position>` values are modelled as association lists
with insert-overwrites semantics; `&mut self` methods returning `Result` are
modelled as functions returning the new state together with an optional error;
the `unreachable!` panic in `pop_stack` is modelled as `Option.none`.
External collaborators that are not part of the provided sources (the
environment/binding store, the for-in iterator and `handle_state_with_labels!`
label logic, `Break::run`, and the statement-level sub-parsers used by the
class parser) are modelled from the specification; each such definition is
marked `Modelled from the spec`.
-/

namespace Boa

/-- Source position (line, column), mirroring `boa::syntax::lexer::Position`. -/
structure Position where
  line : Nat
  column : Nat
deriving DecidableEq, Repr

/-- Parse errors, mirroring `boa::syntax::parser::error::ParseError` at the
granularity the claims need: `lexSyntax` is `ParseError::lex(LexError::Syntax(msg, pos))`,
`general` is `ParseError::general(msg, pos)`, `expected` is a wrong-token error
carrying its context label, and `abruptEnd` is `ParseError::AbruptEnd`. -/
inductive ParseError where
  | lexSyntax (msg : String) (pos : Position)
  | general (msg : String) (pos : Position)
  | expected (context : String) (pos : Position)
  | abruptEnd
deriving DecidableEq, Repr

/-- `HashMap<Box<str>, Position>` modelled as an association list. -/
abbrev NameMap := List (String × Position)

/-- `HashMap::contains_key`. -/
def containsName (m : NameMap) (k : String) : Bool :=
  m.any (fun e => e.1 == k)

/-- `HashMap::insert` (overwrites an existing entry for the key). -/
def insertName (m : NameMap) (k : String) (v : Position) : NameMap :=
  (k, v) :: m.filter (fun e => e.1 != k)

/-- `HashMap::get`. -/
def lookupName (m : NameMap) (k : String) : Option Position :=
  (m.find? (fun e => e.1 == k)).map (fun e => e.2)

/-- `HashMap::extend` of `other` into `m` (entries of `other` overwrite). -/
def extendWith (m other : NameMap) : NameMap :=
  other.foldl (fun acc e => insertName acc e.1 e.2) m

/-! ## `DeclaredNames` (src/boa/src/syntax/parser/mod.rs, lines 91-247) -/

/-- `DeclaredNames`: the current lexical and var name maps plus the stack of
saved `(lex, var)` pairs from enclosing scopes (most recently pushed first;
the Rust `Vec` pushes/pops at the back). -/
structure DeclaredNames where
  lex : NameMap
  var : NameMap
  stack : List (NameMap × NameMap)
deriving DecidableEq, Repr

/-- `DeclaredNames::default()`. -/
def emptyDN : DeclaredNames := ⟨[], [], []⟩

/-- `DeclaredNames::check_any_lex`: the name is in the current `lex` map or in
the `lex` map of any stacked level. -/
def DeclaredNames.check_any_lex (env : DeclaredNames) (name : String) : Bool :=
  containsName env.lex name || env.stack.any (fun level => containsName level.1 name)

/-- `DeclaredNames::insert_var_name`. Returns the updated state and the error,
mirroring the `&mut self` method returning `Result<(), ParseError>`. -/
def DeclaredNames.insert_var_name (env : DeclaredNames) (name : String) (pos : Position) :
    DeclaredNames × Option ParseError :=
  if env.check_any_lex name then
    (env, some (.lexSyntax ("Redeclaration of variable `" ++ name ++ "`") pos))
  else
    ({ env with var := insertName env.var name pos }, none)

/-- `DeclaredNames::insert_lex_name`. The Rust code short-circuits on
`self.var.contains_key(name)`; otherwise `self.lex.insert(..)` runs (mutating
`lex`) and its old value decides success. -/
def DeclaredNames.insert_lex_name (env : DeclaredNames) (name : String) (pos : Position) :
    DeclaredNames × Option ParseError :=
  if containsName env.var name then
    (env, some (.lexSyntax ("Redeclaration of variable `" ++ name ++ "`") pos))
  else
    let existed := containsName env.lex name
    let env' := { env with lex := insertName env.lex name pos }
    if existed then
      (env', some (.lexSyntax ("Redeclaration of variable `" ++ name ++ "`") pos))
    else
      (env', none)

/-- `DeclaredNames::push_stack`: swap the current `lex`/`var` out onto the
stack and reset both to empty. -/
def DeclaredNames.push_stack (env : DeclaredNames) : DeclaredNames :=
  ⟨[], [], (env.lex, env.var) :: env.stack⟩

/-- `DeclaredNames::pop_stack`: restore `lex` from the popped level, merge the
inner `var` with the popped level's `var` (`self.var.extend(outer.1)`), then
re-check every merged var name with `check_any_lex`. `none` models the
`unreachable!` panic when the stack is empty. -/
def DeclaredNames.pop_stack (env : DeclaredNames) :
    Option (DeclaredNames × Option ParseError) :=
  match env.stack with
  | [] => none
  | (outerLex, outerVar) :: rest =>
    let merged := extendWith env.var outerVar
    let env' : DeclaredNames := ⟨outerLex, merged, rest⟩
    match merged.find? (fun e => env'.check_any_lex e.1) with
    | some e =>
      some (env', some (.lexSyntax ("Redeclaration of variable (in pop) `" ++ e.1 ++ "`") e.2))
    | none => some (env', none)

/-! ## Call sequences against a `DeclaredNames` value -/

/-- One call of the `DeclaredNames` API. -/
inductive NameOp where
  | insVar (name : String) (pos : Position)
  | insLex (name : String) (pos : Position)
  | pushOp
  | popOp
deriving DecidableEq, Repr

/-- Whether the call is one of the two insert operations. -/
def NameOp.isInsert : NameOp → Bool
  | .insVar _ _ => true
  | .insLex _ _ => true
  | _ => false

/-- Outcome of one call: `Ok` with the new state, an error result with the new
state, or the fatal `unreachable!` of an unmatched `pop_stack`. -/
inductive StepOut where
  | ok (env : DeclaredNames)
  | err (env : DeclaredNames) (e : ParseError)
  | fatal
deriving DecidableEq, Repr

/-- Execute one `DeclaredNames` call. -/
def stepOp (env : DeclaredNames) : NameOp → StepOut
  | .insVar n p =>
    match env.insert_var_name n p with
    | (env', none) => .ok env'
    | (env', some e) => .err env' e
  | .insLex n p =>
    match env.insert_lex_name n p with
    | (env', none) => .ok env'
    | (env', some e) => .err env' e
  | .pushOp => .ok env.push_stack
  | .popOp =>
    match env.pop_stack with
    | none => .fatal
    | some (env', none) => .ok env'
    | some (env', some e) => .err env' e

/-- Run a call sequence, stopping at the first call that is not `Ok`
(`none` if any call errors or hits the unmatched-pop panic). -/
def runOps (env : DeclaredNames) : List NameOp → Option DeclaredNames
  | [] => some env
  | op :: rest =>
    match stepOp env op with
    | .ok env' => runOps env' rest
    | _ => none

/-- The first call of the sequence that does not return `Ok`, if any. -/
def firstFailure (env : DeclaredNames) : List NameOp → Option NameOp
  | [] => none
  | op :: rest =>
    match stepOp env op with
    | .ok env' => firstFailure env' rest
    | _ => some op

/-- Every `popOp` in the sequence has a matching earlier `pushOp`, starting
from a stack that already holds `d` levels. -/
def balancedFrom : Nat → List NameOp → Bool
  | _, [] => true
  | d, .pushOp :: rest => balancedFrom (d + 1) rest
  | d, .popOp :: rest => decide (0 < d) && balancedFrom (d - 1) rest
  | d, _ :: rest => balancedFrom d rest

/-- The exact call sequence of claim C3:
`insert_var_name("x")`, `push_stack`, `insert_var_name("x")`, two `pop_stack`s. -/
def c3CallsA : List NameOp :=
  [.insVar "x" ⟨1, 1⟩, .pushOp, .insVar "x" ⟨2, 1⟩, .popOp, .popOp]

/-- The C3 variant with an intervening `insert_lex_name("x")` at the inner
level before the pops. -/
def c3CallsB : List NameOp :=
  [.insVar "x" ⟨1, 1⟩, .pushOp, .insVar "x" ⟨2, 1⟩, .insLex "x" ⟨3, 1⟩, .popOp, .popOp]

/-! ## The scope invariant maintained by successful calls -/

/-- A level's `var` names collide neither with its own `lex` map nor with the
`lex` map of any enclosing level. -/
def goodLevel (l v : NameMap) (rest : List (NameMap × NameMap)) : Prop :=
  ∀ n, containsName v n = true →
    containsName l n = false ∧ ∀ p ∈ rest, containsName p.1 n = false

/-- The invariant, level by level (innermost first). -/
def InvLevels : List (NameMap × NameMap) → Prop
  | [] => True
  | (l, v) :: rest => goodLevel l v rest ∧ InvLevels rest

/-- The invariant for a whole `DeclaredNames` state. -/
def Inv (env : DeclaredNames) : Prop :=
  InvLevels ((env.lex, env.var) :: env.stack)

/-! ## `Block::parse` (src/boa/src/syntax/parser/statement/block/mod.rs, lines 76-110) -/

/-- Tokens as the block parser sees them. -/
inductive BTok where
  | openBlock
  | closeBlock
  | other (s : String)
deriving DecidableEq, Repr

/-- `node::Block`; statements are kept opaque (the claims never inspect them). -/
structure BlockNode where
  statements : List String
deriving DecidableEq, Repr

/-- `Block::parse`. The statement-list parser it delegates to is passed in as
`sl` (its source is not part of the provided files); `expect` errors use a
dummy position since `BTok` carries none. The outer `Option` models the
`unreachable!` panic of an unmatched `pop_stack` (`none`). Faithful to the
source: `push_stack` runs first, and the immediately-empty block `{}`
short-circuits and returns without calling `pop_stack`. -/
def blockParse
    (sl : List BTok → DeclaredNames → Except ParseError (List String × List BTok × DeclaredNames))
    (toks : List BTok) (env : DeclaredNames) :
    Option (Except ParseError (BlockNode × List BTok × DeclaredNames)) :=
  let env1 := env.push_stack
  match toks with
  | BTok.openBlock :: rest =>
    match rest with
    | BTok.closeBlock :: rest2 => some (.ok (⟨[]⟩, rest2, env1))
    | _ =>
      match sl rest env1 with
      | .error e => some (.error e)
      | .ok (stmts, rest2, env2) =>
        match rest2 with
        | BTok.closeBlock :: rest3 =>
          match env2.pop_stack with
          | none => none
          | some (_, some e) => some (.error e)
          | some (env3, none) => some (.ok (⟨stmts⟩, rest3, env3))
        | _ => some (.error (ParseError.expected "block" ⟨0, 0⟩))
  | _ => some (.error (ParseError.expected "block" ⟨0, 0⟩))

/-! ## The executor model (src/boa/src/syntax/ast/node/iteration/for_in_loop/mod.rs) -/

/-- Runtime values, at the granularity the executor claims need. -/
inductive Value where
  | undefined
  | nullV
  | str (s : String)
  | obj (id : Nat)
deriving DecidableEq, Repr

/-- `Value::is_null_or_undefined`. -/
def Value.is_null_or_undefined : Value → Bool
  | .undefined => true
  | .nullV => true
  | _ => false

/-- `InterpreterState` (default build; the `Error` variant is gated behind the
`vm` feature and not part of the executed code). -/
inductive InterpreterState where
  | Executing
  | Break (label : Option String)
  | Continue (label : Option String)
  | Return
deriving DecidableEq, Repr

/-- `VariableScope` of the environment interface. -/
inductive VariableScope where
  | Function
  | Block
deriving DecidableEq, Repr

/-- One call into the external environment interface, recorded as a trace. -/
inductive EnvOp where
  | pushEnv
  | popEnv
  | setMutable (name : String) (value : Value)
  | createMutable (name : String) (deletable : Bool) (scope : VariableScope)
  | createImmutable (name : String) (deletable : Bool) (scope : VariableScope)
  | initBinding (name : String) (value : Value)
deriving DecidableEq, Repr

/-- Modelled from the spec: the execution `Context`'s environment chain
(innermost record first, each holding its binding names), the interpreter
state signal, and the trace of environment-interface calls made so far. The
environment/binding store itself is an external collaborator of the sources. -/
structure Ctx where
  envs : List (List String)
  state : InterpreterState
  ops : List EnvOp
deriving DecidableEq, Repr

/-- Modelled from the spec: `Context::push_environment` with a fresh
declarative record. -/
def Ctx.push_environment (ctx : Ctx) : Ctx :=
  { ctx with envs := [] :: ctx.envs, ops := ctx.ops ++ [EnvOp.pushEnv] }

/-- Modelled from the spec: `Context::pop_environment`. -/
def Ctx.pop_environment (ctx : Ctx) : Ctx :=
  { ctx with envs := ctx.envs.tail, ops := ctx.ops ++ [EnvOp.popEnv] }

/-- Modelled from the spec: `Context::has_binding` over the whole chain. -/
def Ctx.has_binding (ctx : Ctx) (n : String) : Bool :=
  ctx.envs.any (fun e => e.contains n)

/-- Modelled from the spec: where a new binding's name is recorded —
block-scoped in the innermost record, function-scoped in the base record. -/
def addScoped : List (List String) → String → VariableScope → List (List String)
  | [], n, _ => [[n]]
  | e :: rest, n, VariableScope.Block => (n :: e) :: rest
  | [e], n, VariableScope.Function => [n :: e]
  | e :: rest, n, VariableScope.Function => e :: addScoped rest n VariableScope.Function

/-- Modelled from the spec: `Context::create_mutable_binding`. -/
def Ctx.create_mutable_binding (ctx : Ctx) (n : String) (deletable : Bool)
    (scope : VariableScope) : Ctx :=
  { ctx with envs := addScoped ctx.envs n scope,
             ops := ctx.ops ++ [EnvOp.createMutable n deletable scope] }

/-- Modelled from the spec: `Context::create_immutable_binding`. -/
def Ctx.create_immutable_binding (ctx : Ctx) (n : String) (deletable : Bool)
    (scope : VariableScope) : Ctx :=
  { ctx with envs := addScoped ctx.envs n scope,
             ops := ctx.ops ++ [EnvOp.createImmutable n deletable scope] }

/-- Modelled from the spec: `Context::initialize_binding` (always succeeds in
the model; recorded in the trace). -/
def Ctx.init_binding (ctx : Ctx) (n : String) (v : Value) : Ctx :=
  { ctx with ops := ctx.ops ++ [EnvOp.initBinding n v] }

/-- Modelled from the spec: `Context::set_mutable_binding`. -/
def Ctx.set_mutable_binding (ctx : Ctx) (n : String) (v : Value) : Ctx :=
  { ctx with ops := ctx.ops ++ [EnvOp.setMutable n v] }

/-- `executor().set_current_state(..)`. -/
def Ctx.set_state (ctx : Ctx) (s : InterpreterState) : Ctx :=
  { ctx with state := s }

/-- One declaration of a `VarDeclList`/`LetDeclList`/`ConstDeclList` head:
its name and whether it carries an initializer. -/
structure DeclEntry where
  name : String
  init : Option Unit
deriving DecidableEq, Repr

/-- The head target of a for-in loop, mirroring the `Node` variants matched in
`ForInLoop::run` (lines 109-193). -/
inductive HeadNode where
  | identifier (name : String)
  | varDeclList (ds : List DeclEntry)
  | letDeclList (ds : List DeclEntry)
  | constDeclList (ds : List DeclEntry)
  | assign
  | otherNode
deriving DecidableEq, Repr

/-- Runtime errors thrown during execution. -/
inductive ErrV where
  | syntaxError (msg : String)
  | typeError (msg : String)
deriving DecidableEq, Repr

/-- The binding step of `ForInLoop::run` (the `match self.variable()` block,
lines 109-193): bind the current enumeration key into the head target. -/
def bindHead (head : HeadNode) (next_result : Value) (ctx : Ctx) : Except ErrV Ctx :=
  match head with
  | .identifier name =>
    if ctx.has_binding name then
      .ok (ctx.set_mutable_binding name next_result)
    else
      .ok ((ctx.create_mutable_binding name true VariableScope.Function).init_binding
        name next_result)
  | .varDeclList ds =>
    match ds with
    | [d] =>
      if d.init.isSome then
        .error (ErrV.syntaxError
          "a declaration in the head of a for-in loop can't have an initializer")
      else if ctx.has_binding d.name then
        .ok (ctx.set_mutable_binding d.name next_result)
      else
        .ok ((ctx.create_mutable_binding d.name false VariableScope.Function).init_binding
          d.name next_result)
    | _ =>
      .error (ErrV.syntaxError
        "only one variable can be declared in the head of a for-in loop")
  | .letDeclList ds =>
    match ds with
    | [d] =>
      if d.init.isSome then
        .error (ErrV.syntaxError
          "a declaration in the head of a for-in loop can't have an initializer")
      else
        .ok ((ctx.create_mutable_binding d.name false VariableScope.Block).init_binding
          d.name next_result)
    | _ =>
      .error (ErrV.syntaxError
        "only one variable can be declared in the head of a for-in loop")
  | .constDeclList ds =>
    match ds with
    | [d] =>
      if d.init.isSome then
        .error (ErrV.syntaxError
          "a declaration in the head of a for-in loop can't have an initializer")
      else
        .ok ((ctx.create_immutable_binding d.name false VariableScope.Block).init_binding
          d.name next_result)
    | _ =>
      .error (ErrV.syntaxError
        "only one variable can be declared in the head of a for-in loop")
  | .assign =>
    .error (ErrV.syntaxError
      "a declaration in the head of a for-in loop can't have an initializer")
  | .otherNode =>
    .error (ErrV.syntaxError "unknown left hand side in head of for-in loop")

/-- `ForInLoop` node data; its `expr` and `body` child nodes are represented
by the evaluation functions passed to `run`. -/
structure ForInLoop where
  variableNode : HeadNode
  label : Option String
deriving DecidableEq, Repr

/-- Modelled from the spec: the label test of the `handle_state_with_labels!`
macro (its definition is not among the provided sources) — an absent control
label, or one equal to this statement's own label, matches. -/
def labelMatches (stmtLabel ctrlLabel : Option String) : Bool :=
  match ctrlLabel with
  | none => true
  | some l => stmtLabel == some l

/-- The iteration loop of `ForInLoop::run` (lines 97-212), driven by the list
of enumeration keys. Faithful to the source: the fresh declarative scope is
pushed at the top of every iteration; the `done` path pops it and exits; the
`Break`/`Continue` arms exit the Rust `loop` via `break` — skipping the
`pop_environment` at line 211 — when the label does not match (and the `Break`
arm exits even when it does); only the fall-through `Continue`-matching and
`Executing` outcomes reach the line-211 pop before the next iteration. -/
def forInIterate (loop : ForInLoop) (runBody : Ctx → Except ErrV (Value × Ctx)) :
    List Value → Value → Ctx → Except ErrV (Value × Ctx)
  | [], result, ctx => .ok (result, ctx.push_environment.pop_environment)
  | k :: rest, _, ctx =>
    match bindHead loop.variableNode k ctx.push_environment with
    | .error e => .error e
    | .ok ctx1 =>
      match runBody ctx1 with
      | .error e => .error e
      | .ok (result1, ctx2) =>
        match ctx2.state with
        | InterpreterState.Break lbl =>
          if labelMatches loop.label lbl then
            .ok (result1, ctx2.set_state InterpreterState.Executing)
          else
            .ok (result1, ctx2)
        | InterpreterState.Continue lbl =>
          if labelMatches loop.label lbl then
            forInIterate loop runBody rest result1
              ((ctx2.set_state InterpreterState.Executing).pop_environment)
          else
            .ok (result1, ctx2)
        | InterpreterState.Return => .ok (result1, ctx2)
        | InterpreterState.Executing =>
          forInIterate loop runBody rest result1 ctx2.pop_environment

/-- `ForInLoop::run` (lines 81-214). `evalExpr` runs the source expression
node, `keysOf` is the external for-in iterator (object coercion plus key
enumeration, modelled from the spec), `runBody` runs the body node. -/
def ForInLoop.run (loop : ForInLoop)
    (evalExpr : Ctx → Except ErrV (Value × Ctx))
    (keysOf : Value → List Value)
    (runBody : Ctx → Except ErrV (Value × Ctx))
    (ctx : Ctx) : Except ErrV (Value × Ctx) :=
  match evalExpr ctx with
  | .error e => .error e
  | .ok (object, ctx1) =>
    if object.is_null_or_undefined then
      .ok (Value.undefined, ctx1)
    else
      forInIterate loop runBody (keysOf object) Value.undefined ctx1

/-- The `Break` AST node: an optional target label. -/
structure BreakNode where
  label : Option String
deriving DecidableEq, Repr

/-- Modelled from the spec: `Break::run` (its source file is not among the
provided sources, only its tests) — set the interpreter state to
`Break(label)` and yield the undefined value, with no other effect. -/
def BreakNode.run (b : BreakNode) (ctx : Ctx) : Except ErrV (Value × Ctx) :=
  .ok (Value.undefined, ctx.set_state (InterpreterState.Break b.label))

/-- The unlabeled for-in loop of the C5 failing input. -/
def c5Loop : ForInLoop := ⟨HeadNode.identifier "x", none⟩

/-- Starting context of the C5 failing input: one environment record binding
`x`, executing normally. -/
def c5Ctx : Ctx := ⟨[["x"]], InterpreterState.Executing, []⟩

/-! ## `ClassElementList::parse` (src/boa/src/syntax/parser/class/mod.rs, lines 77-227) -/

/-- Tokens as the class-body parser sees them. -/
inductive CTok where
  | kwStatic
  | kwGet
  | kwSet
  | ident (s : String)
  | strLit (s : String)
  | openParen
  | closeParen
  | openBlock
  | closeBlock
  | assignTok
  | semicolonTok
  | commaTok
deriving DecidableEq, Repr

/-- A token together with its source position. -/
abbrev PTok := CTok × Position

/-- Modelled from the spec: `BindingIdentifier::parse` (its source is not
among the provided files) — one identifier token. -/
def bindingIdentifier : List PTok → Except ParseError (String × List PTok)
  | (CTok.ident s, _) :: rest => .ok (s, rest)
  | (_, p) :: _ => .error (ParseError.expected "binding identifier" p)
  | [] => .error ParseError.abruptEnd

/-- Modelled from the spec: continuation of the parameter list after the first
parameter — comma-separated identifiers, stopping before the `)`. -/
def formalParamsTail (acc : List String) : List PTok → Except ParseError (List String × List PTok)
  | (CTok.closeParen, p) :: rest => .ok (acc, (CTok.closeParen, p) :: rest)
  | (CTok.commaTok, _) :: (CTok.ident s, _) :: rest => formalParamsTail (acc ++ [s]) rest
  | (_, p) :: _ => .error (ParseError.expected "formal parameters" p)
  | [] => .error ParseError.abruptEnd

/-- Modelled from the spec: `FormalParameters::parse` (its source is not among
the provided files) — comma-separated identifiers, stopping before the `)`.
Rest (`...`) parameters are not modelled, so the strict-mode trailing-variadic
check of the source (lines 154-162) never fires and is omitted. -/
def formalParameters : List PTok → Except ParseError (List String × List PTok)
  | (CTok.closeParen, p) :: rest => .ok ([], (CTok.closeParen, p) :: rest)
  | (CTok.ident s, _) :: rest => formalParamsTail [s] rest
  | (_, p) :: _ => .error (ParseError.expected "formal parameters" p)
  | [] => .error ParseError.abruptEnd

/-- Modelled from the spec: `FunctionBody::parse` — the body tokens are
consumed up to the matching `}` (left for the caller), their content opaque.
`none` is running out of input (`AbruptEnd`). -/
def skipFnBody : Nat → List PTok → Option (List PTok)
  | _, [] => none
  | 0, (CTok.closeBlock, p) :: rest => some ((CTok.closeBlock, p) :: rest)
  | d + 1, (CTok.closeBlock, _) :: rest => skipFnBody d rest
  | d, (CTok.openBlock, _) :: rest => skipFnBody (d + 1) rest
  | d, _ :: rest => skipFnBody d rest

/-- Field-initializer expressions, kept minimal. -/
inductive CExpr where
  | evar (s : String)
  | estr (s : String)
deriving DecidableEq, Repr

/-- Modelled from the spec: `Expression::parse` for field initializers — a
one-token expression. -/
def exprOneTok : List PTok → Except ParseError (CExpr × List PTok)
  | (CTok.ident s, _) :: rest => .ok (CExpr.evar s, rest)
  | (CTok.strLit s, _) :: rest => .ok (CExpr.estr s, rest)
  | (_, p) :: _ => .error (ParseError.expected "expression" p)
  | [] => .error ParseError.abruptEnd

/-- `Cursor::expect` for a single punctuator. -/
def expectTok (k : CTok) (context : String) : List PTok → Except ParseError (List PTok)
  | (t, p) :: rest => if t == k then .ok rest else .error (ParseError.expected context p)
  | [] => .error ParseError.abruptEnd

/-- `FunctionDecl`: name and parameter names (the body is opaque). -/
structure FunctionDecl where
  name : String
  params : List String
deriving DecidableEq, Repr

/-- `ClassField` (src lines 37-47). The parser never produces `Getter`/`Setter`
(the `get`/`set` tokens are consumed but marked TODO in the source). -/
inductive ClassField where
  | Method (f : FunctionDecl)
  | Field (name : String) (value : CExpr)
  | Getter (f : FunctionDecl)
  | Setter (f : FunctionDecl)
deriving DecidableEq, Repr

/-- The declared name of a class field. -/
def ClassField.fieldName : ClassField → String
  | .Method f => f.name
  | .Field n _ => n
  | .Getter f => f.name
  | .Setter f => f.name

/-- The `static` keyword test at the top of the element loop (src lines 107-114). -/
def stripStatic : List PTok → Bool × List PTok
  | (CTok.kwStatic, _) :: rest => (true, rest)
  | toks => (false, toks)

/-- The `get`/`set` keyword consumption (src lines 117-130). -/
def stripGetSet : List PTok → List PTok
  | (CTok.kwGet, _) :: rest => rest
  | (CTok.kwSet, _) :: rest => rest
  | toks => toks

/-- One iteration of the `ClassElementList::parse` loop after the `static` and
`get`/`set` prefixes (src lines 135-212): the element name, the
multiple-constructors check, then the method (`(`) or field (`=`) form.
Output: the static flag, the parsed field (if it goes into a list), and the
parsed constructor (if the element was the constructor). -/
def parseElementCore (ctorPresent staticField : Bool) (toks1 : List PTok) :
    Except ParseError ((Bool × Option ClassField × Option FunctionDecl) × List PTok) :=
  match toks1 with
  | [] => .error ParseError.abruptEnd
  | (_, position) :: _ =>
    match bindingIdentifier toks1 with
    | .error e => .error e
    | .ok (name, toks2) =>
      if name == "constructor" && ctorPresent then
        .error (ParseError.general "Cannot have multiple constructors on an object" position)
      else
        match toks2 with
        | [] => .error ParseError.abruptEnd
        | (next, pos) :: toks3 =>
          match next with
          | CTok.openParen =>
            match formalParameters toks3 with
            | .error e => .error e
            | .ok (params, toks4) =>
              match expectTok CTok.closeParen "class function declaration" toks4 with
              | .error e => .error e
              | .ok toks5 =>
                match expectTok CTok.openBlock "class function declaration" toks5 with
                | .error e => .error e
                | .ok toks6 =>
                  match skipFnBody 0 toks6 with
                  | none => .error ParseError.abruptEnd
                  | some toks7 =>
                    match expectTok CTok.closeBlock "class function declaration" toks7 with
                    | .error e => .error e
                    | .ok toks8 =>
                      if name == "constructor" then
                        .ok ((staticField, none, some ⟨name, params⟩), toks8)
                      else
                        .ok ((staticField, some (ClassField.Method ⟨name, params⟩), none), toks8)
          | CTok.assignTok =>
            if name == "constructor" then
              .error (ParseError.general "Fields cannot be named `constructor`" pos)
            else
              match exprOneTok toks3 with
              | .error e => .error e
              | .ok (value, toks4) =>
                match expectTok CTok.semicolonTok "after a class field declaration" toks4 with
                | .error e => .error e
                | .ok toks5 =>
                  .ok ((staticField, some (ClassField.Field name value), none), toks5)
          | _ => .error (ParseError.expected "class method or field declatation" pos)

/-- One full iteration of the `ClassElementList::parse` loop (src lines 105-212). -/
def parseOneElement (ctorPresent : Bool) (toks : List PTok) :
    Except ParseError ((Bool × Option ClassField × Option FunctionDecl) × List PTok) :=
  parseElementCore ctorPresent (stripStatic toks).1 (stripGetSet (stripStatic toks).2)

/-- The list update at the end of an iteration (src lines 206-212): a parsed
field is pushed onto the static or non-static list; a constructor is not. -/
def pushField (staticField : Bool) (fieldOpt : Option ClassField)
    (fields statics : List ClassField) : List ClassField × List ClassField :=
  match fieldOpt with
  | some f => if staticField then (fields, statics ++ [f]) else (fields ++ [f], statics)
  | none => (fields, statics)

/-- The constructor-slot update: a parsed constructor replaces the slot. -/
def updateCtor (ctor : Option FunctionDecl) (ctorOpt : Option FunctionDecl) :
    Option FunctionDecl :=
  match ctorOpt with
  | some f => some f
  | none => ctor

/-- The `loop` of `ClassElementList::parse` (src lines 105-219), with fuel for
termination (each iteration consumes at least one token, so
`toks.length + 1` fuel always suffices; running out is modelled as
`AbruptEnd`). After each element, a `}` lookahead ends the loop (src lines
214-218, not consuming the `}`); an empty remainder is `AbruptEnd`. -/
def classElementsLoop : Nat → Option FunctionDecl → List ClassField → List ClassField →
    List PTok →
    Except ParseError ((Option FunctionDecl × List ClassField × List ClassField) × List PTok)
  | 0, _, _, _, _ => .error ParseError.abruptEnd
  | fuel + 1, ctor, fields, statics, toks =>
    match parseOneElement ctor.isSome toks with
    | .error e => .error e
    | .ok ((staticField, fieldOpt, ctorOpt), toks1) =>
      match toks1 with
      | [] => .error ParseError.abruptEnd
      | (CTok.closeBlock, p) :: rest =>
        .ok ((updateCtor ctor ctorOpt, (pushField staticField fieldOpt fields statics).1,
          (pushField staticField fieldOpt fields statics).2), (CTok.closeBlock, p) :: rest)
      | t :: rest =>
        classElementsLoop fuel (updateCtor ctor ctorOpt)
          (pushField staticField fieldOpt fields statics).1
          (pushField staticField fieldOpt fields statics).2 (t :: rest)

/-- `ClassElementList::parse` (src lines 87-226): the immediate-`}` short
circuit (src lines 95-103), then the element loop. Output mirrors the source:
the optional constructor, the non-static fields, and the static fields. -/
def classElementList (toks : List PTok) :
    Except ParseError ((Option FunctionDecl × List ClassField × List ClassField) × List PTok) :=
  match toks with
  | [] => .error ParseError.abruptEnd
  | (CTok.closeBlock, p) :: rest => .ok ((none, [], []), (CTok.closeBlock, p) :: rest)
  | _ => classElementsLoop (toks.length + 1) none [] [] toks

/-- Convenience positions for the concrete class-body inputs. -/
def pcol : Nat → Position := fun n => ⟨1, n⟩

/-- The token stream of `static constructor ( ) { } }`. -/
def staticCtorToks : List PTok :=
  [(CTok.kwStatic, pcol 1), (CTok.ident "constructor", pcol 2), (CTok.openParen, pcol 3),
   (CTok.closeParen, pcol 4), (CTok.openBlock, pcol 5), (CTok.closeBlock, pcol 6),
   (CTok.closeBlock, pcol 7)]

/-! ## The round-trip mini-language (claim C8)

Modelled from the spec: the statement parsers and the `display` impls for
blocks, `while` and `break` are not among the provided sources (only the
`fmt` round-trip test in src/boa/src/syntax/ast/node/break_node/tests.rs).
Source text is modelled at the token level ("modulo the formatter's canonical
whitespace"); the grammar covers the constructs of the test's scenario plus
the for-in statement, whose display shape (`for (v in e) {` body `}`) is that
of the in-src `ForInLoop::display`. -/

/-- Tokens of the mini-language. -/
inductive STok where
  | openBrace
  | closeBrace
  | kwWhile
  | kwBreak
  | kwFor
  | kwIn
  | kwTrue
  | parenL
  | parenR
  | identS (s : String)
  | semiS
deriving DecidableEq, Repr

/-- Expressions of the mini-language (loop conditions). -/
inductive SExpr where
  | littrue
  | evar (s : String)
deriving DecidableEq, Repr

/-- Statements of the mini-language. -/
inductive SNode where
  | blockS (stmts : List SNode)
  | whileS (cond : SExpr) (body : List SNode)
  | breakS (label : Option String)
  | callS (fname : String)
  | forInS (v : String) (src : String) (body : List SNode)

/-- Modelled from the spec: expression rendering. -/
def displayExpr : SExpr → List STok
  | .littrue => [STok.kwTrue]
  | .evar s => [STok.identS s]

mutual
/-- Modelled from the spec: statement rendering — braces around block and
loop bodies, `break;` / `break l;` per spec section 4.5, `for (v in e) {` per
the in-src `ForInLoop::display`. -/
def displayStmt : SNode → List STok
  | .blockS ss => STok.openBrace :: (displayStmts ss ++ [STok.closeBrace])
  | .whileS c b => STok.kwWhile :: STok.parenL :: (displayExpr c ++
      (STok.parenR :: STok.openBrace :: (displayStmts b ++ [STok.closeBrace])))
  | .breakS none => [STok.kwBreak, STok.semiS]
  | .breakS (some l) => [STok.kwBreak, STok.identS l, STok.semiS]
  | .callS f => [STok.identS f, STok.parenL, STok.parenR, STok.semiS]
  | .forInS v e b => STok.kwFor :: STok.parenL :: STok.identS v :: STok.kwIn ::
      STok.identS e :: STok.parenR :: STok.openBrace :: (displayStmts b ++ [STok.closeBrace])

/-- Modelled from the spec: statement-list rendering, in order. -/
def displayStmts : List SNode → List STok
  | [] => []
  | s :: rest => displayStmt s ++ displayStmts rest
end

/-- One expected token. -/
def expectS (t : STok) : List STok → Option (List STok)
  | [] => none
  | u :: rest => if u == t then some rest else none

/-- One identifier token. -/
def takeIdent : List STok → Option (String × List STok)
  | STok.identS s :: rest => some (s, rest)
  | _ => none

/-- One expression token. -/
def parseExprTok : List STok → Option (SExpr × List STok)
  | STok.kwTrue :: rest => some (SExpr.littrue, rest)
  | STok.identS s :: rest => some (SExpr.evar s, rest)
  | _ => none

mutual
/-- Modelled from the spec: the recursive-descent statement parser of the
mini-language, with fuel for termination (`none` is a parse failure or fuel
exhaustion; any fuel at least the token count succeeds on valid input). -/
def parseStmt : Nat → List STok → Option (SNode × List STok)
  | 0, _ => none
  | fuel + 1, toks =>
    match toks with
    | [] => none
    | t :: rest =>
      match t with
      | STok.openBrace =>
        match parseStmts fuel rest with
        | none => none
        | some (ss, rest2) =>
          match expectS STok.closeBrace rest2 with
          | none => none
          | some rest3 => some (SNode.blockS ss, rest3)
      | STok.kwWhile =>
        match expectS STok.parenL rest with
        | none => none
        | some r1 =>
          match parseExprTok r1 with
          | none => none
          | some (c, r2) =>
            match expectS STok.parenR r2 with
            | none => none
            | some r3 =>
              match expectS STok.openBrace r3 with
              | none => none
              | some r4 =>
                match parseStmts fuel r4 with
                | none => none
                | some (b, r5) =>
                  match expectS STok.closeBrace r5 with
                  | none => none
                  | some r6 => some (SNode.whileS c b, r6)
      | STok.kwBreak =>
        match rest with
        | [] => none
        | u :: r1 =>
          match u with
          | STok.semiS => some (SNode.breakS none, r1)
          | STok.identS l =>
            match expectS STok.semiS r1 with
            | none => none
            | some r2 => some (SNode.breakS (some l), r2)
          | _ => none
      | STok.kwFor =>
        match expectS STok.parenL rest with
        | none => none
        | some r1 =>
          match takeIdent r1 with
          | none => none
          | some (v, r2) =>
            match expectS STok.kwIn r2 with
            | none => none
            | some r3 =>
              match takeIdent r3 with
              | none => none
              | some (e, r4) =>
                match expectS STok.parenR r4 with
                | none => none
                | some r5 =>
                  match expectS STok.openBrace r5 with
                  | none => none
                  | some r6 =>
                    match parseStmts fuel r6 with
                    | none => none
                    | some (b, r7) =>
                      match expectS STok.closeBrace r7 with
                      | none => none
                      | some r8 => some (SNode.forInS v e b, r8)
      | STok.identS f =>
        match expectS STok.parenL rest with
        | none => none
        | some r1 =>
          match expectS STok.parenR r1 with
          | none => none
          | some r2 =>
            match expectS STok.semiS r2 with
            | none => none
            | some r3 => some (SNode.callS f, r3)
      | _ => none

/-- Modelled from the spec: a statement list, ending at `}` or end of input. -/
def parseStmts : Nat → List STok → Option (List SNode × List STok)
  | 0, _ => none
  | fuel + 1, toks =>
    match toks with
    | [] => some ([], [])
    | t :: rest =>
      match t with
      | STok.closeBrace => some ([], STok.closeBrace :: rest)
      | _ =>
        match parseStmt fuel (t :: rest) with
        | none => none
        | some (s, rest1) =>
          match parseStmts fuel rest1 with
          | none => none
          | some (ss, rest2) => some (s :: ss, rest2)
end

/-- The token stream of the `fmt` round-trip test's scenario: a block holding
a `while (true)` loop with a labeled `break outer;` and a call, followed by a
top-level `while (true)` with a bare `break;`. -/
def scenarioToks : List STok :=
  [STok.openBrace,
     STok.kwWhile, STok.parenL, STok.kwTrue, STok.parenR, STok.openBrace,
       STok.kwBreak, STok.identS "outer", STok.semiS,
     STok.closeBrace,
     STok.identS "skipped_call", STok.parenL, STok.parenR, STok.semiS,
   STok.closeBrace,
   STok.kwWhile, STok.parenL, STok.kwTrue, STok.parenR, STok.openBrace,
     STok.kwBreak, STok.semiS,
   STok.closeBrace]

/-- The AST the scenario parses to. -/
def scenarioAst : List SNode :=
  [SNode.blockS
     [SNode.whileS SExpr.littrue [SNode.breakS (some "outer")],
      SNode.callS "skipped_call"],
   SNode.whileS SExpr.littrue [SNode.breakS none]]

/-! # Theorems -/

/-! ## Association-list lemmas -/

theorem containsName_iff (m : NameMap) (n : String) :
    containsName m n = true ↔ ∃ e ∈ m, e.1 = n := by
  simp [containsName, List.any_eq_true]

theorem containsName_of_mem {m : NameMap} {e : String × Position} (h : e ∈ m) :
    containsName m e.1 = true :=
  (containsName_iff m e.1).2 ⟨e, h, rfl⟩

theorem containsName_insertName (m : NameMap) (k n : String) (v : Position) :
    containsName (insertName m k v) n = true ↔ n = k ∨ containsName m n = true := by
  simp only [containsName_iff, insertName, List.mem_cons, List.mem_filter, bne_iff_ne]
  constructor
  · rintro ⟨e, (he | ⟨hem, hek⟩), hn⟩
    · left; rw [← hn, he]
    · right; exact ⟨e, hem, hn⟩
  · rintro (hk | ⟨e, hem, hn⟩)
    · exact ⟨(k, v), Or.inl rfl, hk.symm⟩
    · by_cases hk : n = k
      · exact ⟨(k, v), Or.inl rfl, hk.symm⟩
      · exact ⟨e, Or.inr ⟨hem, by rw [hn]; exact hk⟩, hn⟩

theorem containsName_extendWith_iff (m other : NameMap) (n : String) :
    containsName (extendWith m other) n = true ↔
      containsName m n = true ∨ containsName other n = true := by
  induction other generalizing m with
  | nil => simp [extendWith, containsName]
  | cons e rest ih =>
    show containsName (extendWith (insertName m e.1 e.2) rest) n = true ↔ _
    rw [ih, containsName_insertName]
    constructor
    · rintro (⟨rfl | h⟩ | h)
      · exact Or.inr (containsName_of_mem (List.mem_cons_self e rest))
      · exact Or.inl h
      · refine Or.inr ?_
        rcases (containsName_iff rest n).1 h with ⟨x, hx, hxn⟩
        exact (containsName_iff (e :: rest) n).2 ⟨x, List.mem_cons_of_mem e hx, hxn⟩
    · rintro (h | h)
      · exact Or.inl (Or.inr h)
      · rcases (containsName_iff (e :: rest) n).1 h with ⟨x, hx, hxn⟩
        rcases List.mem_cons.1 hx with rfl | hx'
        · exact Or.inl (Or.inl hxn.symm)
        · exact Or.inr ((containsName_iff rest n).2 ⟨x, hx', hxn⟩)

theorem find?_key_filter_ne (m : NameMap) (k q : String) (hq : q ≠ k) :
    (m.filter (fun e => e.1 != k)).find? (fun e => e.1 == q) =
      m.find? (fun e => e.1 == q) := by
  induction m with
  | nil => rfl
  | cons e rest ih =>
    rw [List.filter_cons]
    by_cases hek : e.1 = k
    · have h1 : (e.1 == q) = false := by
        subst hek
        exact beq_eq_false_iff_ne.2 (fun h => hq h.symm)
      simp only [hek, bne_self_eq_false, Bool.false_eq_true, if_false]
      rw [ih, List.find?_cons_of_neg _ (by simp [h1])]
    · have h2 : (e.1 != k) = true := bne_iff_ne.2 hek
      simp only [h2, if_true]
      by_cases heq : e.1 = q
      · rw [List.find?_cons_of_pos _ (by simp [heq]), List.find?_cons_of_pos _ (by simp [heq])]
      · rw [List.find?_cons_of_neg _ (by simp [heq]), List.find?_cons_of_neg _ (by simp [heq]),
          ih]

theorem lookupName_insertName_self (m : NameMap) (k : String) (v : Position) :
    lookupName (insertName m k v) k = some v := by
  simp [lookupName, insertName, List.find?]

theorem lookupName_insertName_other (m : NameMap) (k q : String) (v : Position)
    (hq : q ≠ k) : lookupName (insertName m k v) q = lookupName m q := by
  unfold lookupName insertName
  have hqk : (((k, v) : String × Position).1 == q) = false :=
    beq_eq_false_iff_ne.2 (fun h => hq h.symm)
  rw [List.find?_cons_of_neg _ (by simp [hqk])]
  rw [find?_key_filter_ne m k q hq]

/-! ## `check_any_lex` characterizations -/

theorem check_any_lex_true_iff (env : DeclaredNames) (n : String) :
    env.check_any_lex n = true ↔
      containsName env.lex n = true ∨ ∃ lvl ∈ env.stack, containsName lvl.1 n = true := by
  simp [DeclaredNames.check_any_lex, List.any_eq_true]

theorem check_any_lex_false_iff (env : DeclaredNames) (n : String) :
    env.check_any_lex n = false ↔
      containsName env.lex n = false ∧ ∀ p ∈ env.stack, containsName p.1 n = false := by
  unfold DeclaredNames.check_any_lex
  rw [Bool.or_eq_false_iff]
  constructor
  · rintro ⟨h1, h2⟩
    refine ⟨h1, fun p hp => ?_⟩
    have := List.any_eq_false.1 h2 p hp
    simpa using this
  · rintro ⟨h1, h2⟩
    refine ⟨h1, ?_⟩
    apply List.any_eq_false.2
    intro p hp
    simp [h2 p hp]

/-! ## Invariant preservation -/

theorem inv_emptyDN : Inv emptyDN :=
  ⟨fun n h => by simp [emptyDN, containsName] at h, trivial⟩

theorem inv_insert_var {env env' : DeclaredNames} {n : String} {p : Position}
    (hinv : Inv env) (h : env.insert_var_name n p = (env', none)) : Inv env' := by
  unfold DeclaredNames.insert_var_name at h
  by_cases hc : env.check_any_lex n = true
  · rw [if_pos hc] at h
    exact absurd (congrArg Prod.snd h) (by simp)
  · rw [if_neg hc] at h
    have henv : env' = { env with var := insertName env.var n p } :=
      (congrArg Prod.fst h).symm
    subst henv
    obtain ⟨hg, hrest⟩ := hinv
    have hcf : env.check_any_lex n = false := Bool.eq_false_iff.2 hc
    obtain ⟨hl, hs⟩ := (check_any_lex_false_iff env n).1 hcf
    refine ⟨?_, hrest⟩
    intro m hm
    rcases (containsName_insertName env.var n m p).1 hm with rfl | hm'
    · exact ⟨hl, hs⟩
    · exact hg m hm'

theorem inv_insert_lex {env env' : DeclaredNames} {n : String} {p : Position}
    (hinv : Inv env) (h : env.insert_lex_name n p = (env', none)) : Inv env' := by
  unfold DeclaredNames.insert_lex_name at h
  by_cases hv : containsName env.var n = true
  · rw [if_pos hv] at h
    exact absurd (congrArg Prod.snd h) (by simp)
  · rw [if_neg hv] at h
    simp only at h
    by_cases he : containsName env.lex n = true
    · rw [if_pos he] at h
      exact absurd (congrArg Prod.snd h) (by simp)
    · rw [if_neg he] at h
      have henv : env' = { env with lex := insertName env.lex n p } :=
        (congrArg Prod.fst h).symm
      subst henv
      obtain ⟨hg, hrest⟩ := hinv
      refine ⟨?_, hrest⟩
      intro m hm
      obtain ⟨hl, hs⟩ := hg m hm
      refine ⟨?_, hs⟩
      have hmn : m ≠ n := by
        intro hmn
        subst hmn
        exact hv hm
      apply Bool.eq_false_iff.2
      intro hins
      rcases (containsName_insertName env.lex n m p).1 hins with hmn' | hl'
      · exact hmn hmn'
      · rw [hl] at hl'
        exact Bool.false_ne_true hl'

theorem inv_push {env : DeclaredNames} (hinv : Inv env) : Inv env.push_stack := by
  refine ⟨?_, hinv⟩
  intro n h
  simp [DeclaredNames.push_stack, containsName] at h

theorem pop_stack_ok_of_inv {env : DeclaredNames} (hinv : Inv env)
    {lv : NameMap × NameMap} {rest : List (NameMap × NameMap)}
    (hst : env.stack = lv :: rest) :
    env.pop_stack = some (⟨lv.1, extendWith env.var lv.2, rest⟩, none) ∧
      Inv (⟨lv.1, extendWith env.var lv.2, rest⟩ : DeclaredNames) := by
  obtain ⟨hg, hinvRest⟩ := hinv
  rw [hst] at hinvRest
  obtain ⟨hg', hrest'⟩ := hinvRest
  have hmerged : ∀ n, containsName (extendWith env.var lv.2) n = true →
      containsName lv.1 n = false ∧ ∀ p ∈ rest, containsName p.1 n = false := by
    intro n hn
    rcases (containsName_extendWith_iff env.var lv.2 n).1 hn with hv | hv
    · obtain ⟨_, hs⟩ := hg n hv
      rw [hst] at hs
      exact ⟨hs lv (List.mem_cons_self lv rest), fun p hp => hs p (List.mem_cons_of_mem lv hp)⟩
    · exact hg' n hv
  have hfind : (extendWith env.var lv.2).find?
      (fun e => DeclaredNames.check_any_lex ⟨lv.1, extendWith env.var lv.2, rest⟩ e.1) = none := by
    apply List.find?_eq_none.2
    intro e he
    have hce := hmerged e.1 (containsName_of_mem he)
    have hfalse : DeclaredNames.check_any_lex ⟨lv.1, extendWith env.var lv.2, rest⟩ e.1 = false :=
      (check_any_lex_false_iff ⟨lv.1, extendWith env.var lv.2, rest⟩ e.1).2 hce
    simp [hfalse]
  constructor
  · unfold DeclaredNames.pop_stack
    rw [hst]
    obtain ⟨l1, v1⟩ := lv
    simp only
    rw [hfind]
  · exact ⟨hmerged, hrest'⟩

theorem insert_var_name_fst_stack (env : DeclaredNames) (n : String) (p : Position) :
    ((env.insert_var_name n p).1).stack = env.stack := by
  unfold DeclaredNames.insert_var_name
  split <;> rfl

theorem insert_lex_name_fst_stack (env : DeclaredNames) (n : String) (p : Position) :
    ((env.insert_lex_name n p).1).stack = env.stack := by
  unfold DeclaredNames.insert_lex_name
  split
  · rfl
  · simp only
    split <;> rfl

theorem firstFailure_isInsert_aux (ops : List NameOp) :
    ∀ env, Inv env → balancedFrom env.stack.length ops = true →
      ∀ op, firstFailure env ops = some op → op.isInsert = true := by
  induction ops with
  | nil =>
    intro env _ _ op h
    simp [firstFailure] at h
  | cons op0 rest ih =>
    intro env hinv hbal op h
    cases op0 with
    | insVar n p =>
      rw [firstFailure] at h
      rw [stepOp] at h
      rcases hres : env.insert_var_name n p with ⟨env', res⟩
      cases res with
      | none =>
        rw [hres] at h
        simp only at h
        have hstack : env'.stack = env.stack := by
          have h1 := insert_var_name_fst_stack env n p
          rw [hres] at h1
          exact h1
        have hbal' : balancedFrom env'.stack.length rest = true := by
          rw [hstack]
          exact hbal
        exact ih env' (inv_insert_var hinv hres) hbal' op h
      | some e =>
        rw [hres] at h
        simp only at h
        have h2 : NameOp.insVar n p = op := by injection h
        rw [← h2]
        rfl
    | insLex n p =>
      rw [firstFailure] at h
      rw [stepOp] at h
      rcases hres : env.insert_lex_name n p with ⟨env', res⟩
      cases res with
      | none =>
        rw [hres] at h
        simp only at h
        have hstack : env'.stack = env.stack := by
          have h1 := insert_lex_name_fst_stack env n p
          rw [hres] at h1
          exact h1
        have hbal' : balancedFrom env'.stack.length rest = true := by
          rw [hstack]
          exact hbal
        exact ih env' (inv_insert_lex hinv hres) hbal' op h
      | some e =>
        rw [hres] at h
        simp only at h
        have h2 : NameOp.insLex n p = op := by injection h
        rw [← h2]
        rfl
    | pushOp =>
      rw [firstFailure] at h
      rw [stepOp] at h
      simp only at h
      have hbal' : balancedFrom env.push_stack.stack.length rest = true := by
        show balancedFrom (env.stack.length + 1) rest = true
        exact hbal
      exact ih env.push_stack (inv_push hinv) hbal' op h
    | popOp =>
      rw [balancedFrom] at hbal
      simp only [Bool.and_eq_true, decide_eq_true_eq] at hbal
      obtain ⟨hdpos, hbal'⟩ := hbal
      rcases hstack : env.stack with _ | ⟨lv, rest'⟩
      · rw [hstack] at hdpos
        exact absurd hdpos (by simp)
      · obtain ⟨hpop, hinv'⟩ := pop_stack_ok_of_inv hinv hstack
        rw [firstFailure] at h
        rw [stepOp] at h
        rw [hpop] at h
        simp only at h
        have hlen : (List.length rest' : Nat) = env.stack.length - 1 := by
          rw [hstack]
          rfl
        have hbal'' :
            balancedFrom (⟨lv.1, extendWith env.var lv.2, rest'⟩ : DeclaredNames).stack.length
              rest = true := by
          show balancedFrom rest'.length rest = true
          rw [hlen]
          exact hbal'
        exact ih _ hinv' hbal'' op h

/-! ## Claim theorems -/

/-- Claim C1 fails on the code (code bug): parsing the immediately-empty block
`{}` succeeds but leaves the `DeclaredNames` scope stack one level deeper than
before the parse — the `push_stack` performed on entering the block is not
paired with any `pop_stack` on the short-circuit path, for every statement-list
sub-parser and every starting state. -/
theorem C1_empty_block_leaks_scope
    (sl : List BTok → DeclaredNames → Except ParseError (List String × List BTok × DeclaredNames))
    (env : DeclaredNames) :
    blockParse sl [BTok.openBlock, BTok.closeBlock] env =
      some (.ok (⟨[]⟩, ([] : List BTok), env.push_stack)) ∧
    (env.push_stack).stack.length = env.stack.length + 1 :=
  ⟨rfl, by simp [DeclaredNames.push_stack]⟩

/-- Claim C2: `insert_var_name(name, pos)` fails (with a `SyntaxError`-kind
error) iff `name` is in the current-level `lex` map or in the `lex` map of an
enclosing stacked level, and otherwise records `(name, pos)` in `var`,
overwriting any existing entry for `name` and leaving other keys unchanged;
`insert_lex_name(name, pos)` fails iff `name` is in the current-level `var`
map or already in the current-level `lex` map (outer stacked lex levels do not
cause failure), and otherwise inserts it into `lex`. -/
theorem C2_insert_name_semantics (env : DeclaredNames) (name q : String) (pos : Position) :
    (((env.insert_var_name name pos).2 ≠ none) ↔
      (containsName env.lex name = true ∨ ∃ lvl ∈ env.stack, containsName lvl.1 name = true)) ∧
    ((env.insert_var_name name pos).2 ≠ none →
      (env.insert_var_name name pos).2 =
        some (ParseError.lexSyntax ("Redeclaration of variable `" ++ name ++ "`") pos)) ∧
    ((env.insert_var_name name pos).2 = none →
      (env.insert_var_name name pos).1 = { env with var := insertName env.var name pos }) ∧
    (lookupName (insertName env.var name pos) name = some pos) ∧
    (q ≠ name → lookupName (insertName env.var name pos) q = lookupName env.var q) ∧
    (((env.insert_lex_name name pos).2 ≠ none) ↔
      (containsName env.var name = true ∨ containsName env.lex name = true)) ∧
    ((env.insert_lex_name name pos).2 = none →
      (env.insert_lex_name name pos).1 = { env with lex := insertName env.lex name pos }) := by
  refine ⟨?_, ?_, ?_, ?_, ?_, ?_, ?_⟩
  · by_cases hc : env.check_any_lex name = true
    · constructor
      · intro _
        exact (check_any_lex_true_iff env name).1 hc
      · intro _
        simp [DeclaredNames.insert_var_name, hc]
    · have hcf : env.check_any_lex name = false := Bool.eq_false_iff.2 hc
      constructor
      · intro hne
        exact absurd (by simp [DeclaredNames.insert_var_name, hcf]) hne
      · intro hor
        exact absurd ((check_any_lex_true_iff env name).2 hor) hc
  · intro hne
    by_cases hc : env.check_any_lex name = true
    · simp [DeclaredNames.insert_var_name, hc]
    · exact absurd (by simp [DeclaredNames.insert_var_name, Bool.eq_false_iff.2 hc]) hne
  · intro hok
    by_cases hc : env.check_any_lex name = true
    · rw [DeclaredNames.insert_var_name, if_pos hc] at hok
      exact absurd hok (by simp)
    · simp [DeclaredNames.insert_var_name, Bool.eq_false_iff.2 hc]
  · exact lookupName_insertName_self env.var name pos
  · intro hq
    exact lookupName_insertName_other env.var name q pos hq
  · by_cases hv : containsName env.var name = true
    · simp [DeclaredNames.insert_lex_name, hv]
    · by_cases he : containsName env.lex name = true
      · simp [DeclaredNames.insert_lex_name, Bool.eq_false_iff.2 hv, he]
      · simp [DeclaredNames.insert_lex_name, Bool.eq_false_iff.2 hv, Bool.eq_false_iff.2 he]
  · intro hok
    by_cases hv : containsName env.var name = true
    · rw [DeclaredNames.insert_lex_name, if_pos hv] at hok
      exact absurd hok (by simp)
    · by_cases he : containsName env.lex name = true
      · rw [DeclaredNames.insert_lex_name, if_neg (by simp [hv])] at hok
        simp only [he, if_true] at hok
        exact absurd hok (by simp)
      · simp [DeclaredNames.insert_lex_name, Bool.eq_false_iff.2 hv, Bool.eq_false_iff.2 he]

/-- Witness for C2 at a concrete input. -/
theorem C2_witness :
    (emptyDN.insert_var_name "x" ⟨1, 1⟩).1 =
      { emptyDN with var := insertName emptyDN.var "x" ⟨1, 1⟩ } :=
  (C2_insert_name_semantics emptyDN "x" "y" ⟨1, 1⟩).2.2.1 (by decide)

/-- Claim C3 is false as stated: in the exact sequence `insert_var_name("x")`,
`push_stack`, `insert_var_name("x")`, two `pop_stack`s, the calls do not all
return `Ok` — the second `pop_stack` has no matching `push_stack` and is the
fatal `unreachable!` case; and in the variant with an intervening
`insert_lex_name("x")` at the inner level, that insert itself fails
immediately, so the failure is not on the second `pop_stack`. -/
theorem C3_counterexample :
    (runOps emptyDN c3CallsA = none ∧ firstFailure emptyDN c3CallsA = some NameOp.popOp) ∧
    firstFailure emptyDN c3CallsB = some (NameOp.insLex "x" ⟨3, 1⟩) := by
  decide

/-- Claim C3 (amended): starting from an empty `DeclaredNames`, the calls
`insert_var_name("x")`, `push_stack`, `insert_var_name("x")`, then one
`pop_stack` all return `Ok`; a second `pop_stack` finds no stacked level and
is the fatal `unreachable!` contract violation rather than an `Ok`; and in the
variant, the intervening `insert_lex_name("x")` at the inner level itself
fails with a redeclaration error (the name is already in the inner `var` map)
before any `pop_stack` runs. -/
theorem C3_amended :
    runOps emptyDN (c3CallsA.take 4) = some ⟨[], [("x", ⟨1, 1⟩)], []⟩ ∧
    stepOp ⟨[], [("x", ⟨1, 1⟩)], []⟩ NameOp.popOp = StepOut.fatal ∧
    runOps emptyDN (c3CallsB.take 3) = some ⟨[], [("x", ⟨2, 1⟩)], [([], [("x", ⟨1, 1⟩)])]⟩ ∧
    (DeclaredNames.insert_lex_name ⟨[], [("x", ⟨2, 1⟩)], [([], [("x", ⟨1, 1⟩)])]⟩ "x" ⟨3, 1⟩).2 =
      some (ParseError.lexSyntax "Redeclaration of variable `x`" ⟨3, 1⟩) := by
  decide

/-- Claim C4: the for-in head binding step — a bare identifier target reuses a
visible binding, else creates a deletable function-scoped mutable binding and
initializes it; a single-name `var` head does the same existing-or-new
function-scoped resolution; a single-name `let` head always creates a new
block-scoped mutable binding; a single-name `const` head always creates a new
block-scoped immutable binding; a declaration with an initializer, or a head
declaring more than one name, is rejected with a `SyntaxError`, the multi-name
case with the "only one variable can be declared" message. -/
theorem C4_for_in_head_binding (ctx : Ctx) (v : Value) (n : String) (d : DeclEntry)
    (ds : List DeclEntry) :
    (ctx.has_binding n = true →
      bindHead (HeadNode.identifier n) v ctx = .ok (ctx.set_mutable_binding n v)) ∧
    (ctx.has_binding n = false →
      bindHead (HeadNode.identifier n) v ctx =
        .ok ((ctx.create_mutable_binding n true VariableScope.Function).init_binding n v)) ∧
    (d.init = none → ctx.has_binding d.name = true →
      bindHead (HeadNode.varDeclList [d]) v ctx = .ok (ctx.set_mutable_binding d.name v)) ∧
    (d.init = none → ctx.has_binding d.name = false →
      bindHead (HeadNode.varDeclList [d]) v ctx =
        .ok ((ctx.create_mutable_binding d.name false VariableScope.Function).init_binding
          d.name v)) ∧
    (d.init = none →
      bindHead (HeadNode.letDeclList [d]) v ctx =
        .ok ((ctx.create_mutable_binding d.name false VariableScope.Block).init_binding
          d.name v)) ∧
    (d.init = none →
      bindHead (HeadNode.constDeclList [d]) v ctx =
        .ok ((ctx.create_immutable_binding d.name false VariableScope.Block).init_binding
          d.name v)) ∧
    (d.init.isSome = true →
      bindHead (HeadNode.varDeclList [d]) v ctx = .error (ErrV.syntaxError
        "a declaration in the head of a for-in loop can't have an initializer") ∧
      bindHead (HeadNode.letDeclList [d]) v ctx = .error (ErrV.syntaxError
        "a declaration in the head of a for-in loop can't have an initializer") ∧
      bindHead (HeadNode.constDeclList [d]) v ctx = .error (ErrV.syntaxError
        "a declaration in the head of a for-in loop can't have an initializer")) ∧
    (2 ≤ ds.length →
      bindHead (HeadNode.varDeclList ds) v ctx = .error (ErrV.syntaxError
        "only one variable can be declared in the head of a for-in loop") ∧
      bindHead (HeadNode.letDeclList ds) v ctx = .error (ErrV.syntaxError
        "only one variable can be declared in the head of a for-in loop") ∧
      bindHead (HeadNode.constDeclList ds) v ctx = .error (ErrV.syntaxError
        "only one variable can be declared in the head of a for-in loop")) := by
  refine ⟨?_, ?_, ?_, ?_, ?_, ?_, ?_, ?_⟩
  · intro hb
    simp [bindHead, hb]
  · intro hb
    simp [bindHead, hb]
  · intro hinit hb
    simp [bindHead, hinit, hb]
  · intro hinit hb
    simp [bindHead, hinit, hb]
  · intro hinit
    simp [bindHead, hinit]
  · intro hinit
    simp [bindHead, hinit]
  · intro hinit
    refine ⟨?_, ?_, ?_⟩ <;> simp [bindHead, hinit]
  · intro hlen
    rcases ds with _ | ⟨a, _ | ⟨b, t⟩⟩
    · simp at hlen
    · simp at hlen
    · exact ⟨rfl, rfl, rfl⟩

/-- Witness for C4 at a concrete input. -/
theorem C4_witness :
    bindHead (HeadNode.letDeclList [⟨"k", none⟩]) (Value.str "a")
      ⟨[[]], InterpreterState.Executing, []⟩ =
      .ok ((Ctx.create_mutable_binding ⟨[[]], InterpreterState.Executing, []⟩ "k" false
        VariableScope.Block).init_binding "k" (Value.str "a")) :=
  (C4_for_in_head_binding ⟨[[]], InterpreterState.Executing, []⟩ (Value.str "a") "k"
    ⟨"k", none⟩ []).2.2.2.2.1 rfl

/-- Claim C5 fails on the code (code bug): when the body's outcome is `Break`
with a label naming a different construct, `ForInLoop::run` exits the Rust
`loop` via `break` before the end-of-iteration `pop_environment`, so the
`Break` state is propagated unchanged but with the per-iteration declarative
scope still pushed — the environment-chain depth after `run` is one greater
than before it. Evaluated at the concrete failing input: an unlabeled loop
over one key whose body executes `break outer;`. -/
theorem C5_break_leaves_scope_pushed :
    ForInLoop.run c5Loop (fun c => .ok (Value.obj 0, c)) (fun _ => [Value.str "a"])
      (BreakNode.run ⟨some "outer"⟩) c5Ctx =
      .ok (Value.undefined,
        ⟨[[], ["x"]], InterpreterState.Break (some "outer"),
         [EnvOp.pushEnv, EnvOp.setMutable "x" (Value.str "a")]⟩) ∧
    ([[], ["x"]] : List (List String)).length = c5Ctx.envs.length + 1 :=
  ⟨rfl, rfl⟩

/-- Claim C6: whenever the source expression of a for-in loop evaluates to
`null` or `undefined`, `ForInLoop::run` returns the undefined value with the
context exactly as the expression evaluation left it — no object coercion, no
enumeration iterator (the key function is never consulted), no environment
push, and no body execution (the body function is never consulted). -/
theorem C6_null_or_undefined_noop (loop : ForInLoop)
    (evalExpr : Ctx → Except ErrV (Value × Ctx))
    (keysOf : Value → List Value) (runBody : Ctx → Except ErrV (Value × Ctx))
    (ctx ctx' : Ctx) (v : Value)
    (hexpr : evalExpr ctx = .ok (v, ctx'))
    (hnull : v.is_null_or_undefined = true) :
    ForInLoop.run loop evalExpr keysOf runBody ctx = .ok (Value.undefined, ctx') := by
  unfold ForInLoop.run
  rw [hexpr]
  simp [hnull]

/-- Witness for C6 at a concrete input. -/
theorem C6_witness :
    ForInLoop.run ⟨HeadNode.identifier "x", none⟩ (fun c => .ok (Value.nullV, c))
      (fun _ => [Value.str "a"]) (fun c => .ok (Value.undefined, c))
      ⟨[], InterpreterState.Executing, []⟩ =
      .ok (Value.undefined, ⟨[], InterpreterState.Executing, []⟩) :=
  C6_null_or_undefined_noop _ _ _ _ _ _ _ rfl rfl

/-- Claim C9: executing a `Break` node sets the interpreter state to
`Break(label)` — `Break(Some(l))` when the node carries a target label `l` and
`Break(None)` when it does not — and yields the undefined value, with every
other component of the context unchanged. -/
theorem C9_break_run_sets_state (lbl : Option String) (ctx : Ctx) :
    BreakNode.run ⟨lbl⟩ ctx =
      .ok (Value.undefined, { ctx with state := InterpreterState.Break lbl }) := rfl

/-- Claim C10: in every call sequence starting from an empty `DeclaredNames`
in which every `pop_stack` has a matching earlier `push_stack`, the first call
to return a non-`Ok` result — if any — is an insert: equivalently, as long as
every insert call returns `Ok`, every `pop_stack` call returns `Ok` (the
redeclaration re-check inside `pop_stack` never fires, because any collision
it would detect is already rejected at insertion time by `check_any_lex`). -/
theorem C10_pop_never_first_failure (ops : List NameOp)
    (hbal : balancedFrom 0 ops = true) :
    ∀ op, firstFailure emptyDN ops = some op → op.isInsert = true :=
  firstFailure_isInsert_aux ops emptyDN inv_emptyDN hbal

/-- Witness for C10 at a concrete balanced sequence. -/
theorem C10_witness :
    balancedFrom 0 [NameOp.pushOp, NameOp.popOp] = true ∧
    (∀ op, firstFailure emptyDN [NameOp.pushOp, NameOp.popOp] = some op →
      op.isInsert = true) :=
  ⟨by decide, C10_pop_never_first_failure [NameOp.pushOp, NameOp.popOp] (by decide)⟩

/-! ## Class-element-list lemmas and claim C7 -/

theorem parseElementCore_ok_shape (cp sf st : Bool) (fo : Option ClassField)
    (co : Option FunctionDecl) (rest toks1 : List PTok)
    (h : parseElementCore cp sf toks1 = .ok ((st, fo, co), rest)) :
    ∀ f, fo = some f → ClassField.fieldName f ≠ "constructor" := by
  unfold parseElementCore at h
  repeat' split at h
  all_goals try exact Except.noConfusion h
  all_goals
    simp only [Except.ok.injEq, Prod.mk.injEq] at h
  all_goals
    obtain ⟨⟨hst, hfo, hco⟩, hrest⟩ := h
  all_goals
    subst hfo
  all_goals (intro f hf; first
    | exact Option.noConfusion hf
    | (injection hf with hf2; subst hf2; simp only [ClassField.fieldName]; simp_all))

theorem parseOneElement_ok_shape (cp st : Bool) (fo : Option ClassField)
    (co : Option FunctionDecl) (rest toks : List PTok)
    (h : parseOneElement cp toks = .ok ((st, fo, co), rest)) :
    ∀ f, fo = some f → ClassField.fieldName f ≠ "constructor" :=
  parseElementCore_ok_shape cp (stripStatic toks).1 st fo co rest
    (stripGetSet (stripStatic toks).2) h

theorem pushField_preserve (staticField : Bool) {fieldOpt : Option ClassField}
    {fields statics : List ClassField}
    (hfo : ∀ f, fieldOpt = some f → ClassField.fieldName f ≠ "constructor")
    (hf : ∀ f ∈ fields, ClassField.fieldName f ≠ "constructor")
    (hs : ∀ f ∈ statics, ClassField.fieldName f ≠ "constructor") :
    (∀ f ∈ (pushField staticField fieldOpt fields statics).1,
      ClassField.fieldName f ≠ "constructor") ∧
    (∀ f ∈ (pushField staticField fieldOpt fields statics).2,
      ClassField.fieldName f ≠ "constructor") := by
  cases fieldOpt with
  | none => exact ⟨hf, hs⟩
  | some f0 =>
    have h0 := hfo f0 rfl
    cases staticField with
    | false =>
      refine ⟨fun f hfm => ?_, hs⟩
      rcases List.mem_append.1 hfm with hm | hm
      · exact hf f hm
      · rw [List.mem_singleton.1 hm]
        exact h0
    | true =>
      refine ⟨hf, fun f hfm => ?_⟩
      rcases List.mem_append.1 hfm with hm | hm
      · exact hs f hm
      · rw [List.mem_singleton.1 hm]
        exact h0

theorem classElementsLoop_no_ctor_field (fuel : Nat) :
    ∀ ctor fields statics toks out rest,
      (∀ f ∈ fields, ClassField.fieldName f ≠ "constructor") →
      (∀ f ∈ statics, ClassField.fieldName f ≠ "constructor") →
      classElementsLoop fuel ctor fields statics toks = .ok (out, rest) →
      (∀ f ∈ out.2.1, ClassField.fieldName f ≠ "constructor") ∧
      (∀ f ∈ out.2.2, ClassField.fieldName f ≠ "constructor") := by
  induction fuel with
  | zero =>
    intro ctor fields statics toks out rest _ _ h
    exact Except.noConfusion h
  | succ n ih =>
    intro ctor fields statics toks out rest hf hs h
    rw [classElementsLoop] at h
    split at h
    · exact Except.noConfusion h
    · rename_i staticField fieldOpt ctorOpt toks1 hpe
      have hfo := parseOneElement_ok_shape _ _ _ _ _ _ hpe
      have hpp := pushField_preserve staticField hfo hf hs
      split at h
      · exact Except.noConfusion h
      · rw [Except.ok.injEq] at h
        injection h with hout hrest
        subst hout
        exact ⟨hpp.1, hpp.2⟩
      · exact ih _ _ _ _ _ _ hpp.1 hpp.2 h

theorem classElementList_no_ctor_field (toks : List PTok)
    (ctor : Option FunctionDecl) (fields statics : List ClassField) (rest : List PTok)
    (h : classElementList toks = .ok ((ctor, fields, statics), rest)) :
    (∀ f ∈ fields, ClassField.fieldName f ≠ "constructor") ∧
    (∀ f ∈ statics, ClassField.fieldName f ≠ "constructor") := by
  unfold classElementList at h
  split at h
  · exact Except.noConfusion h
  · rw [Except.ok.injEq] at h
    injection h with hout hrest
    injection hout with hc h2
    injection h2 with hfields hstatics
    subst hfields
    subst hstatics
    exact ⟨by simp, by simp⟩
  · exact classElementsLoop_no_ctor_field _ _ _ _ _ _ _ (by simp) (by simp) h

/-- Claim C7 is false as stated: a `constructor` element marked `static` — not
in non-static form — is accepted by `ClassElementList::parse`. On the token
stream of `static constructor ( ) { } }` the parse succeeds, and the
static-marked constructor becomes the returned constructor (appearing in
neither element list) instead of being rejected. -/
theorem C7_counterexample :
    classElementList staticCtorToks =
      .ok ((some ⟨"constructor", []⟩, [], []), [(CTok.closeBlock, pcol 7)]) := rfl

/-- Claim C7 (amended): `ClassElementList` accepts at most one element named
`constructor`, only in parenthesized method form but regardless of the
`static` marker (a static-marked constructor method is accepted and becomes
the returned constructor): a second element named `constructor` is a parse
error carrying the position of that element's name token, a `constructor`
field introduced with `=` is a parse error carrying the position of the `=`
token, and the parsed constructor is returned separately, never appearing in
either the static or the non-static element list. -/
theorem C7_constructor_rules :
    (∀ toks ctor fields statics rest,
      classElementList toks = .ok ((ctor, fields, statics), rest) →
      (∀ f ∈ fields, ClassField.fieldName f ≠ "constructor") ∧
      (∀ f ∈ statics, ClassField.fieldName f ≠ "constructor")) ∧
    (∀ (p : Position) (rest : List PTok),
      parseOneElement true ((CTok.ident "constructor", p) :: rest) =
        .error (ParseError.general "Cannot have multiple constructors on an object" p)) ∧
    (∀ (p q : Position) (rest : List PTok),
      parseOneElement false ((CTok.ident "constructor", p) :: (CTok.assignTok, q) :: rest) =
        .error (ParseError.general "Fields cannot be named `constructor`" q)) ∧
    classElementList staticCtorToks =
      .ok ((some ⟨"constructor", []⟩, [], []), [(CTok.closeBlock, pcol 7)]) := by
  refine ⟨?_, fun p rest => rfl, fun p q rest => rfl, rfl⟩
  intro toks ctor fields statics rest h
  exact classElementList_no_ctor_field toks ctor fields statics rest h

/-- Witness for C7 at a concrete input. -/
theorem C7_witness :
    (∀ f ∈ ([] : List ClassField), ClassField.fieldName f ≠ "constructor") ∧
    (∀ f ∈ ([] : List ClassField), ClassField.fieldName f ≠ "constructor") :=
  C7_constructor_rules.1 staticCtorToks (some ⟨"constructor", []⟩) [] []
    [(CTok.closeBlock, pcol 7)] rfl

/-! ## Round-trip lemmas and claim C8 -/

theorem expectS_sound {t : STok} {toks rest : List STok} (h : expectS t toks = some rest) :
    toks = t :: rest := by
  cases toks with
  | nil => exact Option.noConfusion h
  | cons u r =>
    simp only [expectS] at h
    split at h
    · rename_i hu
      injection h with hr
      rw [hr, beq_iff_eq.1 hu]
    · exact Option.noConfusion h

theorem takeIdent_sound {toks rest : List STok} {s : String}
    (h : takeIdent toks = some (s, rest)) : toks = STok.identS s :: rest := by
  cases toks with
  | nil => exact Option.noConfusion h
  | cons u r =>
    cases u <;> try exact Option.noConfusion h
    rename_i s0
    injection h with h1
    injection h1 with hs hr
    rw [hs, hr]

theorem parseExprTok_sound {toks rest : List STok} {c : SExpr}
    (h : parseExprTok toks = some (c, rest)) : toks = displayExpr c ++ rest := by
  cases toks with
  | nil => exact Option.noConfusion h
  | cons u r =>
    cases u <;> try exact Option.noConfusion h
    · injection h with h1
      injection h1 with hc hr
      rw [← hc, hr]
      rfl
    · rename_i s0
      injection h with h1
      injection h1 with hc hr
      rw [← hc, hr]
      rfl

theorem parse_display_roundtrip (fuel : Nat) :
    (∀ toks s rest, parseStmt fuel toks = some (s, rest) → displayStmt s ++ rest = toks) ∧
    (∀ toks ss rest, parseStmts fuel toks = some (ss, rest) → displayStmts ss ++ rest = toks) := by
  induction fuel with
  | zero =>
    exact ⟨fun toks s rest h => Option.noConfusion h,
      fun toks ss rest h => Option.noConfusion h⟩
  | succ n ih =>
    obtain ⟨ih1, ih2⟩ := ih
    constructor
    · intro toks s rest h
      rcases toks with _ | ⟨t, rest0⟩
      · exact Option.noConfusion h
      · rw [parseStmt.eq_def] at h
        dsimp only [] at h
        cases t
        case openBrace =>
          rcases h1 : parseStmts n rest0 with _ | ⟨ss, rest2⟩ <;> rw [h1] at h <;>
            try dsimp only [] at h
          · exact Option.noConfusion h
          · rcases h2 : expectS STok.closeBrace rest2 with _ | rest3 <;> rw [h2] at h
            · exact Option.noConfusion h
            · injection h with hh
              injection hh with hs hr
              subst hs
              subst hr
              rw [← ih2 _ _ _ h1, expectS_sound h2]
              simp [displayStmt]
        case kwWhile =>
          rcases h1 : expectS STok.parenL rest0 with _ | r1 <;> rw [h1] at h <;>
            try dsimp only [] at h
          · exact Option.noConfusion h
          · rcases h2 : parseExprTok r1 with _ | ⟨c, r2⟩ <;> rw [h2] at h <;>
              try dsimp only [] at h
            · exact Option.noConfusion h
            · rcases h3 : expectS STok.parenR r2 with _ | r3 <;> rw [h3] at h <;>
                try dsimp only [] at h
              · exact Option.noConfusion h
              · rcases h4 : expectS STok.openBrace r3 with _ | r4 <;> rw [h4] at h <;>
                  try dsimp only [] at h
                · exact Option.noConfusion h
                · rcases h5 : parseStmts n r4 with _ | ⟨b, r5⟩ <;> rw [h5] at h <;>
                    try dsimp only [] at h
                  · exact Option.noConfusion h
                  · rcases h6 : expectS STok.closeBrace r5 with _ | r6 <;> rw [h6] at h
                    · exact Option.noConfusion h
                    · injection h with hh
                      injection hh with hs hr
                      subst hs
                      subst hr
                      rw [expectS_sound h1, parseExprTok_sound h2, expectS_sound h3,
                        expectS_sound h4, ← ih2 _ _ _ h5, expectS_sound h6]
                      simp [displayStmt]
        case kwBreak =>
          rcases rest0 with _ | ⟨u, r1⟩
          · exact Option.noConfusion h
          · dsimp only [] at h
            cases u
            case semiS =>
              injection h with hh
              injection hh with hs hr
              subst hs
              subst hr
              rfl
            case identS l =>
              rcases h2 : expectS STok.semiS r1 with _ | r2 <;> rw [h2] at h
              · exact Option.noConfusion h
              · injection h with hh
                injection hh with hs hr
                subst hs
                subst hr
                rw [expectS_sound h2]
                rfl
            all_goals exact Option.noConfusion h
        case kwFor =>
          rcases h1 : expectS STok.parenL rest0 with _ | r1 <;> rw [h1] at h <;>
            try dsimp only [] at h
          · exact Option.noConfusion h
          · rcases h2 : takeIdent r1 with _ | ⟨v, r2⟩ <;> rw [h2] at h <;>
              try dsimp only [] at h
            · exact Option.noConfusion h
            · rcases h3 : expectS STok.kwIn r2 with _ | r3 <;> rw [h3] at h <;>
                try dsimp only [] at h
              · exact Option.noConfusion h
              · rcases h4 : takeIdent r3 with _ | ⟨e, r4⟩ <;> rw [h4] at h <;>
                  try dsimp only [] at h
                · exact Option.noConfusion h
                · rcases h5 : expectS STok.parenR r4 with _ | r5 <;> rw [h5] at h <;>
                    try dsimp only [] at h
                  · exact Option.noConfusion h
                  · rcases h6 : expectS STok.openBrace r5 with _ | r6 <;> rw [h6] at h <;>
                      try dsimp only [] at h
                    · exact Option.noConfusion h
                    · rcases h7 : parseStmts n r6 with _ | ⟨b, r7⟩ <;> rw [h7] at h <;>
                        try dsimp only [] at h
                      · exact Option.noConfusion h
                      · rcases h8 : expectS STok.closeBrace r7 with _ | r8 <;> rw [h8] at h
                        · exact Option.noConfusion h
                        · injection h with hh
                          injection hh with hs hr
                          subst hs
                          subst hr
                          rw [expectS_sound h1, takeIdent_sound h2, expectS_sound h3,
                            takeIdent_sound h4, expectS_sound h5, expectS_sound h6,
                            ← ih2 _ _ _ h7, expectS_sound h8]
                          simp [displayStmt]
        case identS f =>
          rcases h1 : expectS STok.parenL rest0 with _ | r1 <;> rw [h1] at h <;>
            try dsimp only [] at h
          · exact Option.noConfusion h
          · rcases h2 : expectS STok.parenR r1 with _ | r2 <;> rw [h2] at h <;>
              try dsimp only [] at h
            · exact Option.noConfusion h
            · rcases h3 : expectS STok.semiS r2 with _ | r3 <;> rw [h3] at h
              · exact Option.noConfusion h
              · injection h with hh
                injection hh with hs hr
                subst hs
                subst hr
                rw [expectS_sound h1, expectS_sound h2, expectS_sound h3]
                rfl
        all_goals exact Option.noConfusion h
    · intro toks ss rest h
      rcases toks with _ | ⟨t, rest0⟩
      · rw [parseStmts.eq_def] at h
        dsimp only [] at h
        injection h with hh
        injection hh with hs hr
        subst hs
        subst hr
        rfl
      · rw [parseStmts.eq_def] at h
        dsimp only [] at h
        cases t
        case closeBrace =>
          injection h with hh
          injection hh with hs hr
          subst hs
          subst hr
          rfl
        all_goals (
          rcases h1 : parseStmt n _ with _ | ⟨s0, rest1⟩ <;> rw [h1] at h <;>
            try dsimp only [] at h
          · exact Option.noConfusion h
          · rcases h2 : parseStmts n rest1 with _ | ⟨ss2, rest2⟩ <;> rw [h2] at h
            · exact Option.noConfusion h
            · injection h with hh
              injection hh with hs hr
              subst hs
              subst hr
              have hx1 := ih1 _ _ _ h1
              have hx2 := ih2 _ _ _ h2
              rw [← hx1, ← hx2]
              simp [displayStmts])

/-- Claim C8: for every script of the modelled language that the parser
accepts in full, rendering the parsed AST reproduces the original token
stream (`display(parse(source)) == source`, whitespace being canonical at the
token level); in particular the scenario combining nested blocks, a labeled
`break` target reference and a top-level unlabeled `break` inside a loop
parses, round-trips exactly, and its display output re-parses to the same
AST. -/
theorem C8_display_parse_roundtrip :
    (∀ fuel toks ast, parseStmts fuel toks = some (ast, []) → displayStmts ast = toks) ∧
    parseStmts 24 scenarioToks = some (scenarioAst, []) ∧
    displayStmts scenarioAst = scenarioToks ∧
    parseStmts 24 (displayStmts scenarioAst) = some (scenarioAst, []) := by
  refine ⟨?_, rfl, rfl, rfl⟩
  intro fuel toks ast h
  have hx := (parse_display_roundtrip fuel).2 _ _ _ h
  simpa using hx

/-- Witness for C8 at the concrete scenario. -/
theorem C8_witness : displayStmts scenarioAst = scenarioToks :=
  C8_display_parse_roundtrip.1 24 scenarioToks scenarioAst rfl

end Boa
